import Mathlib

/-!
Verification of the WebRTC signaling relay (src/functions/index.js).

The Firebase Realtime Database is modelled as an association list from
room id to a Room record.  JS objects keyed by string (the players set,
the per-player notification mailboxes, the offers and answers buckets)
are modelled as insertion-ordered duplicate-free association lists; key
enumeration order (Object.keys) is modelled as that insertion order.
Each HTTP handler becomes a pure function from the store to either an
error (a thrown Error in JS) or the updated store plus the result value;
every throw in the source precedes any database write, so errors carry
no mutation, matching the code.
-/

namespace ResumeRush

/-- Tagged notification payloads pushed into per-player mailboxes by
the handlers in src/functions/index.js. -/
inductive Notification where
  | new_player (playerId : String)
  | player_left (playerId : String)
  | offerMsg (sender : String) (offer : String)
  | answerMsg (sender : String) (answer : String)
  | new_ice_candidates (sender : String) (candidates : List String)
  deriving DecidableEq, Repr

/-- A room record, mirroring the children of rooms/{roomId} in the
database: host, players (object keyed by player id, value a presence
flag), createdAt, the offers/answers/ice buckets and the per-player
notification mailboxes. -/
structure Room where
  host : String
  players : List String
  createdAt : Int
  offers : List (String × String)
  answers : List (String × String)
  iceCandidates : List (String × List String)
  notifications : List (String × List Notification)
  deriving DecidableEq, Repr

/-- The rooms collection of the database. -/
abbrev Store := List (String × Room)

/-- Read the value at a key of a string-keyed object (null if absent). -/
def lookupA {α : Type} : List (String × α) → String → Option α
  | [], _ => none
  | (k2, v) :: rest, k => if k2 = k then some v else lookupA rest k

/-- Overwrite (or insert) the value at a key of a string-keyed object;
an existing key keeps its position, a new key is appended, matching JS
object key semantics. -/
def setA {α : Type} : List (String × α) → String → α → List (String × α)
  | [], k, v => [(k, v)]
  | (k2, v2) :: rest, k, v =>
      if k2 = k then (k, v) :: rest else (k2, v2) :: setA rest k v

/-- Delete a key of a string-keyed object (a no-op when absent). -/
def eraseA {α : Type} (l : List (String × α)) (k : String) : List (String × α) :=
  l.filter (fun kv => kv.1 ≠ k)

/-- MAX_PLAYERS constant from the source. -/
def MAX_PLAYERS : Nat := 8

/-- ROOM_TIMEOUT constant from the source: 24 hours in milliseconds. -/
def ROOM_TIMEOUT : Int := 24 * 60 * 60 * 1000

/-- The distinct error conditions thrown by the handlers (spec names). -/
inductive SigError where
  | notFound
  | alreadyExists
  | roomFull
  | invalidDirection
  deriving DecidableEq, Repr

/-- The pending mailbox of one player in a room (empty when absent). -/
def queue (room : Room) (playerId : String) : List Notification :=
  (lookupA room.notifications playerId).getD []

/-- addNotification from the source: push appends the notification at
the tail of the mailbox rooms/{roomId}/notifications/{playerId}. -/
def addNotification (room : Room) (playerId : String) (n : Notification) : Room :=
  { room with
    notifications := setA room.notifications playerId (queue room playerId ++ [n]) }

/-- The notification loop of leaveRoom: push player_left{playerId} to
every key of the updated players object in order. -/
def notifyAll (qs : List String) (playerId : String) (room : Room) : Room :=
  qs.foldl (fun r q => addNotification r q (Notification.player_left playerId)) room

/-- createRoom from the source: fails if the room exists, otherwise
writes host, the singleton players object and createdAt. -/
def createRoom (s : Store) (roomId hostId : String) (now : Int) :
    Except SigError Store :=
  match lookupA s roomId with
  | some _ => Except.error SigError.alreadyExists
  | none => Except.ok (setA s roomId
      { host := hostId, players := [hostId], createdAt := now,
        offers := [], answers := [], iceCandidates := [], notifications := [] })

/-- joinRoom from the source: NotFound if the room is absent, RoomFull
if the players object already has MAX_PLAYERS keys, otherwise adds the
player key, notifies only the pre-state host with new_player, and
returns that host id. -/
def joinRoom (s : Store) (roomId playerId : String) :
    Except SigError (Store × String) :=
  match lookupA s roomId with
  | none => Except.error SigError.notFound
  | some room =>
      if MAX_PLAYERS ≤ room.players.length then Except.error SigError.roomFull
      else
        let newPlayers := if playerId ∈ room.players then room.players
          else room.players ++ [playerId]
        let room1 := { room with players := newPlayers }
        let room2 := addNotification room1 room.host (Notification.new_player playerId)
        Except.ok (setA s roomId room2, room.host)

/-- leaveRoom from the source: NotFound if the room is absent; removes
the player key; if the players object became empty, deletes the room;
otherwise reassigns the host to the first remaining key when the host
left, and pushes player_left{playerId} to every remaining player. -/
def leaveRoom (s : Store) (roomId playerId : String) :
    Except SigError (Store × String) :=
  match lookupA s roomId with
  | none => Except.error SigError.notFound
  | some room =>
      let updatedPlayers := room.players.filter (fun q => q ≠ playerId)
      if updatedPlayers.isEmpty then
        Except.ok (eraseA s roomId, "Room closed (last player left)")
      else
        let room1 := { room with players := updatedPlayers }
        let room2 := if playerId = room.host
          then { room1 with host := updatedPlayers.headD "" }
          else room1
        let room3 := notifyAll updatedPlayers playerId room2
        Except.ok (setA s roomId room3, "Left room")

/-- sendOffer from the source: NotFound if the room is absent,
InvalidDirection unless the sender or the target is the host, otherwise
records the payload under offers/{senderId} and notifies the target. -/
def sendOffer (s : Store) (roomId senderId targetId payload : String) :
    Except SigError Store :=
  match lookupA s roomId with
  | none => Except.error SigError.notFound
  | some room =>
      if senderId ≠ room.host ∧ targetId ≠ room.host then
        Except.error SigError.invalidDirection
      else
        let room1 := { room with offers := setA room.offers senderId payload }
        let room2 := addNotification room1 targetId
          (Notification.offerMsg senderId payload)
        Except.ok (setA s roomId room2)

/-- sendAnswer from the source: NotFound if the room is absent, no
direction check, records the payload under answers/{senderId} and
notifies the target. -/
def sendAnswer (s : Store) (roomId senderId targetId payload : String) :
    Except SigError Store :=
  match lookupA s roomId with
  | none => Except.error SigError.notFound
  | some room =>
      let room1 := { room with answers := setA room.answers senderId payload }
      let room2 := addNotification room1 targetId
        (Notification.answerMsg senderId payload)
      Except.ok (setA s roomId room2)

/-- sendIceCandidates from the source: NotFound if the room is absent,
accumulates the candidates under fresh keys of the sender bucket and
pushes one batched notification to the target. -/
def sendIceCandidates (s : Store) (roomId senderId targetId : String)
    (candidates : List String) : Except SigError Store :=
  match lookupA s roomId with
  | none => Except.error SigError.notFound
  | some room =>
      let prev := (lookupA room.iceCandidates senderId).getD []
      let room1 := { room with
        iceCandidates := setA room.iceCandidates senderId (prev ++ candidates) }
      let room2 := addNotification room1 targetId
        (Notification.new_ice_candidates senderId candidates)
      Except.ok (setA s roomId room2)

/-- pollNotifications from the source: reads the mailbox at the path
rooms/{roomId}/notifications/{playerId} directly (no room-existence
check), clears that path, and returns the values in order.  On an
absent room the read yields null and the remove is a no-op. -/
def pollNotifications (s : Store) (roomId playerId : String) :
    Store × List Notification :=
  match lookupA s roomId with
  | none => (s, [])
  | some room =>
      (setA s roomId
        { room with notifications := eraseA room.notifications playerId },
       queue room playerId)

/-- cleanupInactiveRooms from the source: computes cutoff = now minus
ROOM_TIMEOUT and deletes every room whose createdAt is strictly below
the cutoff, touching nothing else. -/
def cleanupInactiveRooms (s : Store) (now : Int) : Store :=
  s.filter (fun kv => ¬ kv.2.createdAt < now - ROOM_TIMEOUT)

/-- The mailbox of one player of one room as seen from the store. -/
def storeQueue (s : Store) (roomId playerId : String) : List Notification :=
  match lookupA s roomId with
  | none => []
  | some room => queue room playerId

/-- A two-member room used to instantiate theorems at concrete inputs. -/
def demoRoom : Room :=
  { host := "h1", players := ["h1", "p2"], createdAt := 0,
    offers := [], answers := [], iceCandidates := [], notifications := [] }

/-- A store holding only demoRoom under id R1. -/
def demoStore : Store := [("R1", demoRoom)]

/-- A room at capacity (MAX_PLAYERS members). -/
def fullRoom : Room :=
  { host := "h1", players := ["h1", "p2", "p3", "p4", "p5", "p6", "p7", "p8"],
    createdAt := 0,
    offers := [], answers := [], iceCandidates := [], notifications := [] }

/-- A store holding only fullRoom under id R2. -/
def fullStore : Store := [("R2", fullRoom)]

/-- A room whose player set is the singleton of its host. -/
def soloRoom : Room :=
  { host := "h1", players := ["h1"], createdAt := 0,
    offers := [], answers := [], iceCandidates := [], notifications := [] }

/-- A store holding only soloRoom under id R3. -/
def soloStore : Store := [("R3", soloRoom)]

theorem lookupA_setA_self {α : Type} (l : List (String × α)) (k : String) (v : α) :
    lookupA (setA l k v) k = some v := by
  induction l with
  | nil => simp [setA, lookupA]
  | cons hd tl ih =>
      obtain ⟨k2, v2⟩ := hd
      by_cases h : k2 = k
      · simp [setA, h, lookupA]
      · simp [setA, h, lookupA, ih]

theorem lookupA_setA_other {α : Type} (l : List (String × α)) (k k2 : String) (v : α)
    (h : k2 ≠ k) : lookupA (setA l k v) k2 = lookupA l k2 := by
  induction l with
  | nil => simp [setA, lookupA, Ne.symm h]
  | cons hd tl ih =>
      obtain ⟨k3, v3⟩ := hd
      by_cases h3 : k3 = k
      · subst h3
        simp [setA, lookupA, Ne.symm h]
      · simp only [setA, if_neg h3, lookupA]
        by_cases h4 : k3 = k2
        · simp [h4]
        · simp [h4, ih]

theorem eraseA_cons {α : Type} (k2 : String) (v2 : α) (tl : List (String × α))
    (k : String) :
    eraseA ((k2, v2) :: tl) k =
      if k2 = k then eraseA tl k else (k2, v2) :: eraseA tl k := by
  by_cases h : k2 = k
  · simp [eraseA, List.filter_cons, h]
  · simp [eraseA, List.filter_cons, h]

theorem lookupA_eraseA_self {α : Type} (l : List (String × α)) (k : String) :
    lookupA (eraseA l k) k = none := by
  induction l with
  | nil => rfl
  | cons hd tl ih =>
      obtain ⟨k2, v2⟩ := hd
      rw [eraseA_cons]
      by_cases h : k2 = k
      · rw [if_pos h]
        exact ih
      · rw [if_neg h]
        simp [lookupA, h, ih]

theorem lookupA_eraseA_other {α : Type} (l : List (String × α)) (k k2 : String)
    (h : k2 ≠ k) : lookupA (eraseA l k) k2 = lookupA l k2 := by
  induction l with
  | nil => rfl
  | cons hd tl ih =>
      obtain ⟨k3, v3⟩ := hd
      rw [eraseA_cons]
      by_cases h3 : k3 = k
      · subst h3
        rw [if_pos rfl, ih]
        simp [lookupA, Ne.symm h]
      · rw [if_neg h3]
        by_cases h4 : k3 = k2
        · simp [lookupA, h4]
        · simp [lookupA, h4, ih]

theorem queue_addNotification_self (room : Room) (p : String) (n : Notification) :
    queue (addNotification room p n) p = queue room p ++ [n] := by
  simp [queue, addNotification, lookupA_setA_self]

theorem queue_addNotification_other (room : Room) (p q : String) (n : Notification)
    (h : q ≠ p) : queue (addNotification room p n) q = queue room q := by
  simp [queue, addNotification, lookupA_setA_other _ _ _ _ h]

theorem addNotification_players (room : Room) (p : String) (n : Notification) :
    (addNotification room p n).players = room.players := rfl

theorem addNotification_host (room : Room) (p : String) (n : Notification) :
    (addNotification room p n).host = room.host := rfl

theorem notifyAll_cons (q : String) (qs : List String) (pid : String) (room : Room) :
    notifyAll (q :: qs) pid room =
      notifyAll qs pid (addNotification room q (Notification.player_left pid)) := rfl

theorem notifyAll_players (qs : List String) (pid : String) (room : Room) :
    (notifyAll qs pid room).players = room.players := by
  induction qs generalizing room with
  | nil => rfl
  | cons q qs ih => rw [notifyAll_cons, ih, addNotification_players]

theorem notifyAll_host (qs : List String) (pid : String) (room : Room) :
    (notifyAll qs pid room).host = room.host := by
  induction qs generalizing room with
  | nil => rfl
  | cons q qs ih => rw [notifyAll_cons, ih, addNotification_host]

theorem queue_notifyAll_not_mem (qs : List String) (pid p : String) (room : Room)
    (h : p ∉ qs) : queue (notifyAll qs pid room) p = queue room p := by
  induction qs generalizing room with
  | nil => rfl
  | cons q qs ih =>
      have hne : p ≠ q := fun he => h (List.mem_cons.mpr (Or.inl he))
      rw [notifyAll_cons, ih _ (fun hm => h (List.mem_cons_of_mem _ hm)),
        queue_addNotification_other _ _ _ _ hne]

theorem queue_notifyAll_mem (qs : List String) (pid p : String) (room : Room)
    (hnd : qs.Nodup) (h : p ∈ qs) :
    queue (notifyAll qs pid room) p =
      queue room p ++ [Notification.player_left pid] := by
  induction qs generalizing room with
  | nil => cases h
  | cons q qs ih =>
      have hq : q ∉ qs := (List.nodup_cons.mp hnd).1
      rcases List.mem_cons.mp h with he | hm
      · subst he
        rw [notifyAll_cons, queue_notifyAll_not_mem _ _ _ _ hq,
          queue_addNotification_self]
      · have hne : p ≠ q := by
          intro he
          rw [he] at hm
          exact hq hm
        rw [notifyAll_cons, ih _ (List.nodup_cons.mp hnd).2 hm,
          queue_addNotification_other _ _ _ _ hne]

theorem headD_mem {l : List String} (h : l ≠ []) (d : String) : l.headD d ∈ l := by
  cases l with
  | nil => exact absurd rfl h
  | cons a t => simp [List.headD]

theorem filter_eq_self_of_not_mem (l : List String) (p : String) (h : p ∉ l) :
    l.filter (fun q => q ≠ p) = l := by
  rw [List.filter_eq_self]
  intro a ha
  have hne : a ≠ p := by
    intro he
    rw [he] at ha
    exact h ha
  simp [hne]

theorem isEmpty_false_of_ne_nil {α : Type} (l : List α) (h : l ≠ []) :
    l.isEmpty = false := by
  cases l with
  | nil => exact absurd rfl h
  | cons a t => rfl

/-- Claim C1 counterexample: pollNotifications invoked on a store in which no
room exists does not fail with NotFound.  In the source it reads the path
rooms/R1/notifications/p1 directly, with no existence check and no throw, so
it succeeds, returns the empty notification list, and leaves the store
unchanged — refuting the claim that every operation other than create_room
fails with NotFound on a missing room id. -/
theorem pollNotifications_missing_room_succeeds :
    pollNotifications [] "R1" "p1" = ([], []) := rfl

/-- Claim C1 (amended): join_room, leave_room, offer, answer and
ice_candidates invoked with a roomId for which no room exists all fail with
NotFound, and (the throw preceding every write in the source) perform no
store mutation; poll_notifications on such a roomId does not fail — it
succeeds with the empty notification list and leaves the store unchanged. -/
theorem missing_room_all_ops
    (s : Store) (roomId playerId targetId payload : String) (cands : List String)
    (h : lookupA s roomId = none) :
    joinRoom s roomId playerId = Except.error SigError.notFound ∧
    leaveRoom s roomId playerId = Except.error SigError.notFound ∧
    sendOffer s roomId playerId targetId payload = Except.error SigError.notFound ∧
    sendAnswer s roomId playerId targetId payload = Except.error SigError.notFound ∧
    sendIceCandidates s roomId playerId targetId cands = Except.error SigError.notFound ∧
    pollNotifications s roomId playerId = (s, []) := by
  refine ⟨?_, ?_, ?_, ?_, ?_, ?_⟩ <;>
    simp [joinRoom, leaveRoom, sendOffer, sendAnswer, sendIceCandidates,
      pollNotifications, h]

/-- Claim C1 witness: the amended behaviour at the concrete store demoStore
and the absent room id R9. -/
theorem missing_room_all_ops_witness :
    joinRoom demoStore "R9" "p1" = Except.error SigError.notFound ∧
    leaveRoom demoStore "R9" "p1" = Except.error SigError.notFound ∧
    sendOffer demoStore "R9" "p1" "t1" "sdp" = Except.error SigError.notFound ∧
    sendAnswer demoStore "R9" "p1" "t1" "sdp" = Except.error SigError.notFound ∧
    sendIceCandidates demoStore "R9" "p1" "t1" ["c1"] = Except.error SigError.notFound ∧
    pollNotifications demoStore "R9" "p1" = (demoStore, []) :=
  missing_room_all_ops demoStore "R9" "p1" "t1" "sdp" ["c1"] (by decide)

/-- Claim C6: create_room is rejected with AlreadyExists exactly when a room
with that id already exists; on success the stored room round-trips — a
subsequent lookup returns host = hostId, the singleton player set, and the
creation timestamp. -/
theorem createRoom_spec
    (s : Store) (roomId hostId : String) (now : Int) :
    (createRoom s roomId hostId now = Except.error SigError.alreadyExists ↔
      (lookupA s roomId).isSome = true) ∧
    ((lookupA s roomId).isSome = false →
      ∃ s2, createRoom s roomId hostId now = Except.ok s2 ∧
        ∃ room2, lookupA s2 roomId = some room2 ∧
          room2.host = hostId ∧ room2.players = [hostId] ∧ room2.createdAt = now) := by
  cases hlk : lookupA s roomId with
  | none =>
      constructor
      · simp [createRoom, hlk]
      · intro _
        refine ⟨setA s roomId
          { host := hostId, players := [hostId], createdAt := now,
            offers := [], answers := [], iceCandidates := [], notifications := [] },
          by simp [createRoom, hlk], ?_⟩
        exact ⟨_, lookupA_setA_self _ _ _, rfl, rfl, rfl⟩
  | some r =>
      exact ⟨by simp [createRoom, hlk], by simp⟩

/-- Claim C7: leave_room by the sole member of a room deletes the whole room,
so a subsequent lookup of that id fails, every other room is untouched, and
no player_left notification is pushed to anyone. -/
theorem leaveRoom_last_player
    (s : Store) (roomId p : String) (room : Room)
    (hlk : lookupA s roomId = some room) (hp : room.players = [p]) :
    leaveRoom s roomId p =
      Except.ok (eraseA s roomId, "Room closed (last player left)") ∧
    lookupA (eraseA s roomId) roomId = none ∧
    ∀ rid, rid ≠ roomId → lookupA (eraseA s roomId) rid = lookupA s rid := by
  refine ⟨?_, lookupA_eraseA_self s roomId,
    fun rid hr => lookupA_eraseA_other s roomId rid hr⟩
  simp [leaveRoom, hlk, hp]

/-- Claim C7 witness: the sole host h1 of soloRoom leaves room R3. -/
theorem leaveRoom_last_player_witness :
    leaveRoom soloStore "R3" "h1" =
      Except.ok (eraseA soloStore "R3", "Room closed (last player left)") ∧
    lookupA (eraseA soloStore "R3") "R3" = none ∧
    ∀ rid, rid ≠ "R3" → lookupA (eraseA soloStore "R3") rid = lookupA soloStore rid :=
  leaveRoom_last_player soloStore "R3" "h1" soloRoom (by decide) (by decide)

theorem lookupA_none_of_not_mem_keys {α : Type} (l : List (String × α)) (k : String)
    (h : k ∉ l.map Prod.fst) : lookupA l k = none := by
  induction l with
  | nil => rfl
  | cons hd tl ih =>
      obtain ⟨k2, v2⟩ := hd
      have hne : k2 ≠ k := by
        intro he
        exact h (by rw [he]; exact List.mem_cons_self _ _)
      simp only [lookupA, if_neg hne]
      exact ih (fun hm => h (List.mem_cons_of_mem _ hm))

theorem lookupA_filter_of_none {α : Type} (P : String × α → Bool)
    (l : List (String × α)) (k : String) (h : lookupA l k = none) :
    lookupA (l.filter P) k = none := by
  induction l with
  | nil => rfl
  | cons hd tl ih =>
      obtain ⟨k2, v2⟩ := hd
      have hne : k2 ≠ k := by
        intro he
        simp [lookupA, he] at h
      simp only [lookupA, if_neg hne] at h
      rw [List.filter_cons]
      by_cases hP : P (k2, v2)
      · simp only [hP, if_true, lookupA, if_neg hne]
        exact ih h
      · simp only [hP, if_false]
        exact ih h

theorem lookupA_filter {α : Type} (P : String × α → Bool) (l : List (String × α))
    (k : String) (v : α)
    (hnd : (l.map Prod.fst).Nodup) (hlk : lookupA l k = some v) :
    lookupA (l.filter P) k = if P (k, v) then some v else none := by
  induction l with
  | nil => cases hlk
  | cons hd tl ih =>
      obtain ⟨k2, v2⟩ := hd
      have hnd2 : (tl.map Prod.fst).Nodup := (List.nodup_cons.mp (by simpa using hnd)).2
      have hk2 : k2 ∉ tl.map Prod.fst := (List.nodup_cons.mp (by simpa using hnd)).1
      by_cases h : k2 = k
      · subst h
        have hv : v2 = v := by simpa [lookupA] using hlk
        subst hv
        rw [List.filter_cons]
        by_cases hP : P (k2, v2)
        · simp [hP, lookupA]
        · have hPf : P (k2, v2) = false := by simp [hP]
          rw [hPf]
          simp only [Bool.false_eq_true, if_false]
          exact lookupA_filter_of_none P tl k2 (lookupA_none_of_not_mem_keys tl k2 hk2)
      · simp only [lookupA, if_neg h] at hlk
        rw [List.filter_cons]
        by_cases hP : P (k2, v2)
        · simp only [hP, if_true, lookupA, if_neg h]
          exact ih hnd2 hlk
        · simp only [hP, if_false]
          exact ih hnd2 hlk

/-- Claim C8: a Janitor sweep at time now deletes exactly the rooms whose
createdAt is strictly below now - ROOM_TIMEOUT, and leaves every other room
byte-for-byte unchanged (in particular it pushes no notification to anyone:
a deleted room vanishes wholesale and a surviving room keeps its exact
record, mailboxes included). -/
theorem cleanupInactiveRooms_spec
    (s : Store) (now : Int) (roomId : String) (room : Room)
    (hnd : (s.map Prod.fst).Nodup)
    (hlk : lookupA s roomId = some room) :
    lookupA (cleanupInactiveRooms s now) roomId =
      if room.createdAt < now - ROOM_TIMEOUT then none else some room := by
  have h := lookupA_filter (fun kv => decide (¬ kv.2.createdAt < now - ROOM_TIMEOUT))
    s roomId room hnd hlk
  rw [cleanupInactiveRooms, h]
  by_cases hc : room.createdAt < now - ROOM_TIMEOUT
  · simp [hc]
  · simp [hc]

/-- Claim C8 witness: demoRoom was created at time 0; a sweep 25 hours later
(90000000 ms) deletes it, a sweep 1 hour later (3600000 ms) leaves it
untouched. -/
theorem cleanupInactiveRooms_witness :
    (lookupA (cleanupInactiveRooms demoStore 90000000) "R1" =
      if demoRoom.createdAt < (90000000 : Int) - ROOM_TIMEOUT then none
      else some demoRoom) ∧
    (lookupA (cleanupInactiveRooms demoStore 3600000) "R1" =
      if demoRoom.createdAt < (3600000 : Int) - ROOM_TIMEOUT then none
      else some demoRoom) :=
  ⟨cleanupInactiveRooms_spec demoStore 90000000 "R1" demoRoom (by decide) (by decide),
   cleanupInactiveRooms_spec demoStore 3600000 "R1" demoRoom (by decide) (by decide)⟩

/-- Claim C3: poll_notifications returns exactly the pending mailbox of the
player and clears it: the returned list is the mailbox content (FIFO, since
addNotification appends each pushed notification at the tail, as the last
conjunct states), the mailbox is empty afterwards, and a second consecutive
poll with no intervening push returns the empty list. -/
theorem pollNotifications_fifo_drain
    (s : Store) (roomId playerId p2 : String) (room2 : Room) (n : Notification) :
    (pollNotifications s roomId playerId).2 = storeQueue s roomId playerId ∧
    storeQueue (pollNotifications s roomId playerId).1 roomId playerId = [] ∧
    (pollNotifications (pollNotifications s roomId playerId).1 roomId playerId).2
      = [] ∧
    queue (addNotification room2 p2 n) p2 = queue room2 p2 ++ [n] := by
  have h1 : ∀ t : Store, (pollNotifications t roomId playerId).2 =
      storeQueue t roomId playerId := by
    intro t
    cases hlk : lookupA t roomId with
    | none => simp [pollNotifications, storeQueue, hlk]
    | some room => simp [pollNotifications, storeQueue, hlk]
  have h2 : storeQueue (pollNotifications s roomId playerId).1 roomId playerId
      = [] := by
    cases hlk : lookupA s roomId with
    | none => simp [pollNotifications, storeQueue, hlk]
    | some room =>
        simp only [pollNotifications, hlk, storeQueue, lookupA_setA_self,
          queue, lookupA_eraseA_self, Option.getD_none]
  exact ⟨h1 s, h2, by rw [h1, h2], queue_addNotification_self room2 p2 n⟩

/-- Claim C4: in an existing room, offer fails with InvalidDirection exactly
when neither the sender nor the target is the host, while answer performs no
direction check at all: for every sender and target it succeeds, records the
payload under answers/senderId, pushes one answer notification to the target
mailbox, and changes neither players nor host. -/
theorem offer_answer_direction
    (s : Store) (roomId : String) (room : Room) (senderId targetId payload : String)
    (hlk : lookupA s roomId = some room) :
    (sendOffer s roomId senderId targetId payload =
        Except.error SigError.invalidDirection ↔
      (senderId ≠ room.host ∧ targetId ≠ room.host)) ∧
    ∃ s2, sendAnswer s roomId senderId targetId payload = Except.ok s2 ∧
      ∃ room2, lookupA s2 roomId = some room2 ∧
        room2.answers = setA room.answers senderId payload ∧
        queue room2 targetId =
          queue room targetId ++ [Notification.answerMsg senderId payload] ∧
        room2.players = room.players ∧ room2.host = room.host := by
  constructor
  · by_cases hdir : senderId ≠ room.host ∧ targetId ≠ room.host
    · simp [sendOffer, hlk, hdir]
    · simp [sendOffer, hlk, hdir]
  · refine ⟨setA s roomId (addNotification
      { room with answers := setA room.answers senderId payload } targetId
      (Notification.answerMsg senderId payload)),
      by simp [sendAnswer, hlk], ?_⟩
    refine ⟨_, lookupA_setA_self _ _ _, rfl, ?_, rfl, rfl⟩
    rw [queue_addNotification_self]
    rfl

/-- Claim C4 witness: in demoRoom (host h1), an offer between the two
non-host parties p2 and p3 is rejected, and an answer between them goes
through with the recorded payload and the mailbox push. -/
theorem offer_answer_direction_witness :
    (sendOffer demoStore "R1" "p2" "p3" "sdp" =
        Except.error SigError.invalidDirection ↔
      ("p2" ≠ demoRoom.host ∧ "p3" ≠ demoRoom.host)) ∧
    ∃ s2, sendAnswer demoStore "R1" "p2" "p3" "sdp" = Except.ok s2 ∧
      ∃ room2, lookupA s2 "R1" = some room2 ∧
        room2.answers = setA demoRoom.answers "p2" "sdp" ∧
        queue room2 "p3" =
          queue demoRoom "p3" ++ [Notification.answerMsg "p2" "sdp"] ∧
        room2.players = demoRoom.players ∧ room2.host = demoRoom.host :=
  offer_answer_direction demoStore "R1" demoRoom "p2" "p3" "sdp" (by decide)

/-- Claim C5: join_room fails with NotFound when the room does not exist and
with RoomFull when it has MAX_PLAYERS members; otherwise it adds the player
to the player set, returns the current host id, and pushes exactly one
new_player notification carrying the player id to the host mailbox only
(every other mailbox of the room, and every other room, is unchanged). -/
theorem joinRoom_spec
    (s : Store) (roomId playerId : String) :
    (lookupA s roomId = none →
      joinRoom s roomId playerId = Except.error SigError.notFound) ∧
    (∀ room, lookupA s roomId = some room →
      (room.players.length = MAX_PLAYERS →
        joinRoom s roomId playerId = Except.error SigError.roomFull) ∧
      (room.players.length < MAX_PLAYERS →
        ∃ s2, joinRoom s roomId playerId = Except.ok (s2, room.host) ∧
          ∃ room2, lookupA s2 roomId = some room2 ∧
            playerId ∈ room2.players ∧
            room2.host = room.host ∧
            queue room2 room.host =
              queue room room.host ++ [Notification.new_player playerId] ∧
            (∀ q, q ≠ room.host → queue room2 q = queue room q) ∧
            (∀ rid, rid ≠ roomId → lookupA s2 rid = lookupA s rid))) := by
  constructor
  · intro h
    simp [joinRoom, h]
  · intro room hlk
    constructor
    · intro hfull
      simp [joinRoom, hlk, hfull]
    · intro hlt
      have hnotfull : ¬ MAX_PLAYERS ≤ room.players.length := Nat.not_le.mpr hlt
      refine ⟨setA s roomId (addNotification
        { room with players := if playerId ∈ room.players then room.players
            else room.players ++ [playerId] }
        room.host (Notification.new_player playerId)),
        by simp [joinRoom, hlk, hnotfull], ?_⟩
      refine ⟨_, lookupA_setA_self _ _ _, ?_, rfl, ?_, ?_, ?_⟩
      · by_cases hm : playerId ∈ room.players <;> simp [addNotification, hm]
      · rw [queue_addNotification_self]
        rfl
      · intro q hq
        rw [queue_addNotification_other _ _ _ _ hq]
        rfl
      · intro rid hr
        exact lookupA_setA_other _ _ _ _ hr

/-- Claim C2: when the host leaves a room whose player set minus the host is
non-empty, exactly one new host is installed (the host field is overwritten
once, with the first remaining player key), that new host is a member of the
resulting player set and differs from the departing host, and every
remaining player — the new host included — receives a player_left
notification carrying the id of the departing host. -/
theorem leaveRoom_host_reassign
    (s : Store) (roomId : String) (room : Room)
    (hlk : lookupA s roomId = some room)
    (hnd : room.players.Nodup)
    (hne : room.players.filter (fun q => q ≠ room.host) ≠ []) :
    ∃ s2, leaveRoom s roomId room.host = Except.ok (s2, "Left room") ∧
      ∃ room2, lookupA s2 roomId = some room2 ∧
        room2.players = room.players.filter (fun q => q ≠ room.host) ∧
        room2.host ∈ room2.players ∧
        room2.host ≠ room.host ∧
        ∀ q ∈ room2.players,
          queue room2 q = queue room q ++ [Notification.player_left room.host] := by
  have hE := isEmpty_false_of_ne_nil _ hne
  have hex : ∃ x ∈ room.players, ¬ x = room.host := by
    obtain ⟨a, t, hat⟩ := List.exists_cons_of_ne_nil hne
    have ha : a ∈ room.players.filter (fun q => q ≠ room.host) := by
      rw [hat]
      exact List.mem_cons_self _ _
    have hm := List.mem_filter.mp ha
    exact ⟨a, hm.1, by simpa using hm.2⟩
  refine ⟨setA s roomId (notifyAll (room.players.filter (fun q => q ≠ room.host))
      room.host
      { room with
        players := room.players.filter (fun q => q ≠ room.host),
        host := (room.players.filter (fun q => q ≠ room.host)).headD "" }),
    ?_, ?_⟩
  · simp [leaveRoom, hlk, hE, hne, hex]
  · refine ⟨_, lookupA_setA_self _ _ _, notifyAll_players _ _ _, ?_, ?_, ?_⟩
    · rw [notifyAll_players, notifyAll_host]
      exact headD_mem hne ""
    · rw [notifyAll_host]
      have hm := List.mem_filter.mp (headD_mem hne "")
      simpa using hm.2
    · intro q hq
      rw [notifyAll_players] at hq
      rw [queue_notifyAll_mem _ _ _ _ (hnd.filter _) hq]
      rfl

/-- Claim C2 witness: the host h1 leaves demoRoom, p2 remains; the theorem
instantiated at demoStore. -/
theorem leaveRoom_host_reassign_witness :
    ∃ s2, leaveRoom demoStore "R1" demoRoom.host = Except.ok (s2, "Left room") ∧
      ∃ room2, lookupA s2 "R1" = some room2 ∧
        room2.players = demoRoom.players.filter (fun q => q ≠ demoRoom.host) ∧
        room2.host ∈ room2.players ∧
        room2.host ≠ demoRoom.host ∧
        ∀ q ∈ room2.players,
          queue room2 q = queue demoRoom q ++ [Notification.player_left demoRoom.host] :=
  leaveRoom_host_reassign demoStore "R1" demoRoom (by decide) (by decide) (by decide)

/-- Claim C9: leave_room by a player who is not a member of an existing room
(whose host is a member of its duplicate-free player set) succeeds with the
Left room result, leaves the player set and the host unchanged, and still
pushes a player_left notification carrying that player to every member. -/
theorem leaveRoom_nonmember
    (s : Store) (roomId p : String) (room : Room)
    (hlk : lookupA s roomId = some room)
    (hnd : room.players.Nodup)
    (hhost : room.host ∈ room.players)
    (hnm : p ∉ room.players) :
    ∃ s2, leaveRoom s roomId p = Except.ok (s2, "Left room") ∧
      ∃ room2, lookupA s2 roomId = some room2 ∧
        room2.players = room.players ∧
        room2.host = room.host ∧
        ∀ q ∈ room.players,
          queue room2 q = queue room q ++ [Notification.player_left p] := by
  have hfix : room.players.filter (fun q => q ≠ p) = room.players :=
    filter_eq_self_of_not_mem _ _ hnm
  have hne : room.players ≠ [] := List.ne_nil_of_mem hhost
  have hpnh : p ≠ room.host := by
    intro he
    rw [he] at hnm
    exact hnm hhost
  have hE : (room.players.filter (fun q => q ≠ p)).isEmpty = false := by
    rw [hfix]
    exact isEmpty_false_of_ne_nil _ hne
  have hAll : ¬ ∀ a ∈ room.players, a = p := by
    intro hAll
    exact hpnh (hAll room.host hhost).symm
  have hfilne : room.players.filter (fun q => q ≠ p) ≠ [] := by
    rw [hfix]
    exact hne
  refine ⟨setA s roomId (notifyAll room.players p room), ?_, ?_⟩
  · have key : leaveRoom s roomId p = Except.ok (setA s roomId
        (notifyAll (room.players.filter (fun q => q ≠ p)) p
          { room with players := room.players.filter (fun q => q ≠ p) }),
        "Left room") := by
      simp [leaveRoom, hlk, hE, hpnh, hAll, hfilne]
    rw [key, hfix]
  · refine ⟨_, lookupA_setA_self _ _ _, notifyAll_players _ _ _,
      notifyAll_host _ _ _, ?_⟩
    intro q hq
    rw [queue_notifyAll_mem _ _ _ _ hnd hq]

/-- Claim C9 witness: p9 is not a member of demoRoom; the theorem
instantiated at demoStore. -/
theorem leaveRoom_nonmember_witness :
    ∃ s2, leaveRoom demoStore "R1" "p9" = Except.ok (s2, "Left room") ∧
      ∃ room2, lookupA s2 "R1" = some room2 ∧
        room2.players = demoRoom.players ∧
        room2.host = demoRoom.host ∧
        ∀ q ∈ demoRoom.players,
          queue room2 q = queue demoRoom q ++ [Notification.player_left "p9"] :=
  leaveRoom_nonmember demoStore "R1" "p9" demoRoom (by decide) (by decide)
    (by decide) (by decide)

/-- Claim C10: join_room by a player already in the player set fails with
RoomFull when the room has MAX_PLAYERS members (the capacity check counts
the player itself); otherwise it succeeds returning the host, leaves the
player set unchanged, and pushes an additional duplicate new_player
notification carrying that player to the host mailbox. -/
theorem joinRoom_existing_member
    (s : Store) (roomId playerId : String) (room : Room)
    (hlk : lookupA s roomId = some room) (hmem : playerId ∈ room.players) :
    (room.players.length = MAX_PLAYERS →
      joinRoom s roomId playerId = Except.error SigError.roomFull) ∧
    (room.players.length < MAX_PLAYERS →
      ∃ s2, joinRoom s roomId playerId = Except.ok (s2, room.host) ∧
        ∃ room2, lookupA s2 roomId = some room2 ∧
          room2.players = room.players ∧
          room2.host = room.host ∧
          queue room2 room.host =
            queue room room.host ++ [Notification.new_player playerId]) := by
  constructor
  · intro hfull
    simp [joinRoom, hlk, hfull]
  · intro hlt
    have hnotfull : ¬ MAX_PLAYERS ≤ room.players.length := Nat.not_le.mpr hlt
    refine ⟨setA s roomId (addNotification room room.host
        (Notification.new_player playerId)),
      ?_, _, lookupA_setA_self _ _ _, rfl, rfl, ?_⟩
    · simp [joinRoom, hlk, hnotfull, hmem]
    · rw [queue_addNotification_self]

/-- Claim C10 witness: p2 re-joins the full room R2 (rejected RoomFull) and
re-joins the two-member room R1 (accepted, set unchanged, duplicate
notification to the host). -/
theorem joinRoom_existing_member_witness :
    ((fullRoom.players.length = MAX_PLAYERS →
      joinRoom fullStore "R2" "p2" = Except.error SigError.roomFull) ∧
    (fullRoom.players.length < MAX_PLAYERS →
      ∃ s2, joinRoom fullStore "R2" "p2" = Except.ok (s2, fullRoom.host) ∧
        ∃ room2, lookupA s2 "R2" = some room2 ∧
          room2.players = fullRoom.players ∧
          room2.host = fullRoom.host ∧
          queue room2 fullRoom.host =
            queue fullRoom fullRoom.host ++ [Notification.new_player "p2"])) ∧
    ((demoRoom.players.length = MAX_PLAYERS →
      joinRoom demoStore "R1" "p2" = Except.error SigError.roomFull) ∧
    (demoRoom.players.length < MAX_PLAYERS →
      ∃ s2, joinRoom demoStore "R1" "p2" = Except.ok (s2, demoRoom.host) ∧
        ∃ room2, lookupA s2 "R1" = some room2 ∧
          room2.players = demoRoom.players ∧
          room2.host = demoRoom.host ∧
          queue room2 demoRoom.host =
            queue demoRoom demoRoom.host ++ [Notification.new_player "p2"])) :=
  ⟨joinRoom_existing_member fullStore "R2" "p2" fullRoom (by decide) (by decide),
   joinRoom_existing_member demoStore "R1" "p2" demoRoom (by decide) (by decide)⟩

end ResumeRush
